import Mathlib

/-!
Verification of the cricket data-aggregation service (the credential pool,
throttle gate, cache refresh, match classification, player-merge enrichment
and batting-state computation of `cricketService.js`).

The service's functions are shallowly embedded as Lean definitions: module
state becomes explicit state values, `Date.now()` becomes an explicit `now`
argument, fallible upstream calls become explicit outcome arguments, and
JavaScript truthiness (`x || y`, `if (x)`) is modelled with explicit
falsiness of `0`, `""`, `null`/`undefined`.
-/

set_option maxHeartbeats 1000000

namespace CricketService

/-! ## Key pool manager -/

/-- Sixteen minutes in milliseconds: the default `blockDuration` argument of
`markKeyAsRateLimited` (`16 * 60 * 1000`). -/
def BLOCK_DURATION : Nat := 16 * 60 * 1000

/-- State owned by the key pool: the ordered key list `apiKeys`, the rotation
cursor `currentKeyIndex`, and `keyRateLimitMap` mapping a key to its
`blockedUntil` timestamp (`none` models both an absent map entry and a `null`
`blockedUntil` field, which the source treats alike). -/
structure KeyPoolState where
  apiKeys : List String
  currentKeyIndex : Nat
  blockedUntil : String → Option Nat

/-- The blocked test of `getApiKey`:
`keyInfo && keyInfo.blockedUntil && now < keyInfo.blockedUntil`. -/
def isBlockedNow (blocked : String → Option Nat) (key : String) (now : Nat) : Bool :=
  match blocked key with
  | some t => decide (now < t)
  | none => false

/-- `isBlockedNow` on a pool state. -/
def isKeyBlocked (st : KeyPoolState) (key : String) (now : Nat) : Bool :=
  isBlockedNow st.blockedUntil key now

/-- The scanning loop of `getApiKey`: starting at index `idx`, try up to `fuel`
keys (the source bounds the loop by `attempts < apiKeys.length`); a key that is
not blocked is returned together with the cursor position where it was found,
otherwise the cursor advances modulo the pool size and a miss is reported. -/
def getApiKeyLoop (keys : List String) (blocked : String → Option Nat) (now : Nat) :
    Nat → Nat → Option String × Nat
  | idx, 0 => (none, idx)
  | idx, fuel + 1 =>
    if isBlockedNow blocked (keys.getD idx "") now then
      getApiKeyLoop keys blocked now ((idx + 1) % keys.length) fuel
    else
      (some (keys.getD idx ""), idx)

/-- `getApiKey`: returns `none` on an empty pool; otherwise scans for a
non-blocked key and, if every key is blocked, returns the key at the cursor
anyway ("If all keys are blocked, use current key anyway").  The second
component is the updated `currentKeyIndex`. -/
def getApiKey (st : KeyPoolState) (now : Nat) : Option String × Nat :=
  if st.apiKeys.isEmpty then (none, st.currentKeyIndex)
  else
    match getApiKeyLoop st.apiKeys st.blockedUntil now st.currentKeyIndex st.apiKeys.length with
    | (some key, idx) => (some key, idx)
    | (none, idx) => (some (st.apiKeys.getD idx ""), idx)

/-- `markKeyAsRateLimited`: sets `blockedUntil = Date.now() + blockDuration`
for the key and advances the cursor to the next index modulo the pool size. -/
def markKeyAsRateLimited (st : KeyPoolState) (key : String) (now : Nat)
    (blockDuration : Nat) : KeyPoolState :=
  { st with
    blockedUntil := fun k => if k = key then some (now + blockDuration) else st.blockedUntil k
    currentKeyIndex := (st.currentKeyIndex + 1) % st.apiKeys.length }

/-! ## Throttle gate -/

/-- Ten seconds in milliseconds: the `THROTTLE_DELAY` constant. -/
def THROTTLE_DELAY : Nat := 10000

/-- The time at which a passage through `throttleApiCall` that observed
`lastObserved` as `lastApiCallTime` and entered at wall-clock time `t` resumes
and records its start: when `now - lastApiCallTime < THROTTLE_DELAY` the
caller waits out the missing difference (resuming at
`lastObserved + THROTTLE_DELAY`), and afterwards `lastApiCallTime` is set to
the resume moment. -/
def gateStart (lastObserved t : Nat) : Nat :=
  if t - lastObserved < THROTTLE_DELAY then lastObserved + THROTTLE_DELAY else t

/-- Progress of one caller through `throttleApiCall`: not yet entered; having
read the shared `lastApiCallTime` (the read happens synchronously at entry,
before the `setTimeout` suspension); or finished with a recorded start time
(the write of `lastApiCallTime` that follows the wait). -/
inductive GatePhase
  | pending
  | waiting (obs : Nat)
  | finished (start : Nat)
deriving DecidableEq

/-- Interleaved state of two callers passing through the throttle gate: a
wall clock, the shared `lastApiCallTime`, and each caller's phase. -/
structure GateState where
  clock : Nat
  last : Nat
  p1 : GatePhase
  p2 : GatePhase
deriving DecidableEq

/-- Atomic events of the two-caller gate interleaving: caller `i` reads the
shared timestamp, or caller `i` wakes from its wait and writes it. -/
inductive GateEv
  | read1
  | read2
  | wake1
  | wake2

/-- One cooperative step of the two callers, entering `throttleApiCall` at
times `enter1` and `enter2`.  A read happens at the caller's entry time; a
wake happens at `gateStart obs enter` and stores that moment into the shared
`lastApiCallTime`.  A step is invalid (`none`) when it would run the wall
clock backwards, so a valid event list is a temporally consistent
interleaving of the two passages. -/
def gateStep (enter1 enter2 : Nat) (s : GateState) : GateEv → Option GateState
  | .read1 =>
    match s.p1 with
    | .pending =>
      if s.clock ≤ enter1 then some { s with clock := enter1, p1 := .waiting s.last } else none
    | _ => none
  | .read2 =>
    match s.p2 with
    | .pending =>
      if s.clock ≤ enter2 then some { s with clock := enter2, p2 := .waiting s.last } else none
    | _ => none
  | .wake1 =>
    match s.p1 with
    | .waiting obs =>
      if s.clock ≤ gateStart obs enter1 then
        some { s with clock := gateStart obs enter1, last := gateStart obs enter1,
                      p1 := .finished (gateStart obs enter1) }
      else none
    | _ => none
  | .wake2 =>
    match s.p2 with
    | .waiting obs =>
      if s.clock ≤ gateStart obs enter2 then
        some { s with clock := gateStart obs enter2, last := gateStart obs enter2,
                      p2 := .finished (gateStart obs enter2) }
      else none
    | _ => none

/-- Run a list of gate events from a state, failing on any invalid step. -/
def gateRun (enter1 enter2 : Nat) (s : GateState) : List GateEv → Option GateState
  | [] => some s
  | ev :: evs =>
    match gateStep enter1 enter2 s ev with
    | some s' => gateRun enter1 enter2 s' evs
    | none => none

/-! ## Per-region refresh mutual exclusion -/

/-- Phase of one trigger of a region's update function
(`updateCurrentMatchesCache` / `updateUpcomingMatchesCache`): not yet run;
inside the `try` block with the busy flag held (`writes` counts the fetches
and cache writes it performed); or returned (`writes = 0` for a trigger that
hit the busy guard and returned immediately). -/
inductive RefreshPhase
  | notStarted
  | refreshing (writes : Nat)
  | finished (writes : Nat)
deriving DecidableEq

/-- Whether a trigger is currently in the REFRESHING state. -/
def RefreshPhase.isRefreshing : RefreshPhase → Bool
  | .refreshing _ => true
  | _ => false

/-- State of one cache region: its busy flag (`cache.isUpdatingCurrent` or
`cache.isUpdatingUpcoming`) and the phases of the triggers issued so far. -/
structure RegionState where
  busy : Bool
  tasks : List RefreshPhase
deriving DecidableEq

/-- Number of triggers currently in the REFRESHING state. -/
def inFlight (s : RegionState) : Nat := s.tasks.countP RefreshPhase.isRefreshing

/-- Cooperative steps of the region's update function.  The busy check and the
flag assignment are one atomic step because no `await` separates them in the
source; the work inside the `try` block may interleave with other tasks at its
`await` points; the `finally` clears the flag on every exit path. -/
inductive RegionStep : RegionState → RegionState → Prop
  | enterBusy (s : RegionState) (i : Nat) :
      s.busy = true → s.tasks[i]? = some .notStarted →
      RegionStep s { s with tasks := s.tasks.set i (.finished 0) }
  | enterFree (s : RegionState) (i : Nat) :
      s.busy = false → s.tasks[i]? = some .notStarted →
      RegionStep s { busy := true, tasks := s.tasks.set i (.refreshing 0) }
  | work (s : RegionState) (i w : Nat) :
      s.tasks[i]? = some (.refreshing w) →
      RegionStep s { s with tasks := s.tasks.set i (.refreshing (w + 1)) }
  | exitStep (s : RegionState) (i w : Nat) :
      s.tasks[i]? = some (.refreshing w) →
      RegionStep s { busy := false, tasks := s.tasks.set i (.finished w) }

/-- Initial region state: flag clear, `n` triggers not yet run. -/
def regionInit (n : Nat) : RegionState :=
  { busy := false, tasks := List.replicate n .notStarted }

/-- States reachable by interleaving `n` triggers of one region. -/
def RegionReachable (n : Nat) (s : RegionState) : Prop :=
  Relation.ReflTransGen RegionStep (regionInit n) s

/-! ## Match classification and list-region refresh -/

/-- A raw match from the upstream `/matches` endpoint, restricted to the
fields the refresh functions inspect.  `matchStarted`/`matchEnded` are
`Option Bool` because the source compares them with strict equality
(`=== true` / `=== false`), which an absent field fails.  `dateTimeGMT` and
`date` are timestamps with `0` standing for an absent or otherwise falsy
value (the sort keys on `new Date(a.dateTimeGMT || a.date || 0)`).  Score
entries are abstracted to opaque numbers: classification only tests the
array's presence and length. -/
structure RawMatch where
  id : Nat
  matchStarted : Option Bool
  matchEnded : Option Bool
  dateTimeGMT : Nat
  date : Nat
  score : Option (List Nat)
deriving DecidableEq

/-- `match.score && Array.isArray(match.score) && match.score.length > 0`. -/
def hasScore (m : RawMatch) : Bool :=
  match m.score with
  | some s => decide (0 < s.length)
  | none => false

/-- `match.matchStarted === true && match.matchEnded === false`. -/
def isLive (m : RawMatch) : Bool :=
  m.matchStarted == some true && m.matchEnded == some false

/-- `match.matchStarted === true && match.matchEnded === true && hasScore`. -/
def isCompletedWithScore (m : RawMatch) : Bool :=
  m.matchStarted == some true && m.matchEnded == some true && hasScore m

/-- The filter of the Current region: `isLive || isCompletedWithScore`. -/
def liveFilter (m : RawMatch) : Bool :=
  isLive m || isCompletedWithScore m

/-- The sort key `new Date(a.dateTimeGMT || a.date || 0)`. -/
def dateKey (m : RawMatch) : Nat :=
  if m.dateTimeGMT ≠ 0 then m.dateTimeGMT else m.date

/-- The comparator `(a, b) => dateB - dateA` as a merge-sort order: `a` may
precede `b` exactly when `a`'s date is at least `b`'s (descending); ties keep
the original order, as the ECMAScript stable sort does. -/
def dateDescLe (a b : RawMatch) : Bool :=
  decide (dateKey b ≤ dateKey a)

/-- The success path of `updateCurrentMatchesCache`: filter to live or
completed-with-score matches, sort descending by date, keep the first 10. -/
def classifyCurrent (raw : List RawMatch) : List RawMatch :=
  ((raw.filter liveFilter).mergeSort dateDescLe).take 10

/-- The success path of `updateUpcomingMatchesCache`: keep matches with
`matchStarted === false`, in upstream order, capped at 20. -/
def classifyUpcoming (raw : List RawMatch) : List RawMatch :=
  (raw.filter (fun m => m.matchStarted == some false)).take 20

/-- Envelope of a decoded upstream response: `{status, reason?, data?}`;
`reason` is `""` when absent. -/
structure ApiResponse where
  status : String
  reason : String
  data : Option (List RawMatch)
deriving DecidableEq

/-- Net outcome of the fetch attempt inside a list-region refresh: a thrown
transport error (classified rate-limited or not by the message text and the
HTTP 429 test), or a decoded response envelope. -/
inductive FetchOutcome
  | transportError (rateLimited : Bool)
  | response (r : ApiResponse)
deriving DecidableEq

/-- Whether a refresh outcome reaches the cache-write branch of the update
functions: a decoded response with `status === 'success'` and an array
`data` field. -/
def refreshSucceeded : FetchOutcome → Bool
  | .response r => r.status == "success" && r.data.isSome
  | .transportError _ => false

/-- Data path of `updateCurrentMatchesCache`, given the cached Current value
and the outcome of the fetch attempt (key rotation and throttling act on
state modelled separately and never touch the cache).  Returns the value the
function returns and the Current cache afterwards: the cache is written only
on a successful response with an array payload; the `failure`-status branch
and the `catch` branch both return `cache.current || { data: [] }` and leave
the cache alone. -/
def updateCurrentMatchesCache (oldCurrent : Option (List RawMatch))
    (outcome : FetchOutcome) : List RawMatch × Option (List RawMatch) :=
  match outcome with
  | .response r =>
    if r.status = "success" then
      match r.data with
      | some allMatches =>
        let sortedLive := classifyCurrent allMatches
        (sortedLive, some sortedLive)
      | none => (oldCurrent.getD [], oldCurrent)
    else
      (oldCurrent.getD [], oldCurrent)
  | .transportError _ => (oldCurrent.getD [], oldCurrent)

/-- Data path of `updateUpcomingMatchesCache`, as for the Current region. -/
def updateUpcomingMatchesCache (oldUpcoming : Option (List RawMatch))
    (outcome : FetchOutcome) : List RawMatch × Option (List RawMatch) :=
  match outcome with
  | .response r =>
    if r.status = "success" then
      match r.data with
      | some allMatches =>
        let upcomingMatches := classifyUpcoming allMatches
        (upcomingMatches, some upcomingMatches)
      | none => (oldUpcoming.getD [], oldUpcoming)
    else
      (oldUpcoming.getD [], oldUpcoming)
  | .transportError _ => (oldUpcoming.getD [], oldUpcoming)

/-- `getCurrentMatches`: serve the cached Current value when it is a
non-empty array, otherwise fetch on demand through the update function. -/
def getCurrentMatches (oldCurrent : Option (List RawMatch))
    (outcome : FetchOutcome) : List RawMatch × Option (List RawMatch) :=
  match oldCurrent with
  | some data =>
    if 0 < data.length then (data, some data)
    else updateCurrentMatchesCache oldCurrent outcome
  | none => updateCurrentMatchesCache oldCurrent outcome

/-- A live match (`matchStarted: true, matchEnded: false`), as in the
specification's classification scenario. -/
def sampleLive : RawMatch := ⟨1, some true, some false, 0, 0, none⟩

/-- A not-started match (`matchStarted: false`), as in the specification's
classification scenario. -/
def sampleNotStarted : RawMatch := ⟨2, some false, none, 0, 0, none⟩

/-- A family of not-started matches used in the 25-match Upcoming scenario. -/
def mkUpcoming (i : Nat) : RawMatch := ⟨i, some false, none, 0, 0, none⟩

/-! ## Match detail cache -/

/-- Match-detail cache duration: five minutes
(`MATCH_DETAILS_CACHE_DURATION`). -/
def MATCH_DETAILS_CACHE_DURATION : Nat := 5 * 60 * 1000

/-- The match-detail cache region: `cache.matchDetails`, a map from match id
to `{ data, timestamp }`, with the enriched payload abstracted to an
arbitrary type. -/
structure DetailState (α : Type) where
  matchDetails : List (Nat × α × Nat)

/-- `cache.matchDetails.get(matchId)`. -/
def detailGet {α : Type} (st : DetailState α) (matchId : Nat) : Option (α × Nat) :=
  (st.matchDetails.find? (fun e => e.1 == matchId)).map (·.2)

/-- `cache.matchDetails.set(matchId, { data, timestamp })`. -/
def detailSet {α : Type} (st : DetailState α) (matchId : Nat) (d : α) (ts : Nat) :
    DetailState α :=
  if st.matchDetails.any (fun e => e.1 == matchId) then
    ⟨st.matchDetails.map (fun e => if e.1 == matchId then (matchId, d, ts) else e)⟩
  else
    ⟨st.matchDetails ++ [(matchId, d, ts)]⟩

/-- Data path of `getMatchDetails`: a fresh cached entry is returned, an
expired cached entry is returned anyway ("stale cache is better than no
data"), and only a true miss runs the fetch-and-enrich pipeline, abstracted
here as `fetch` (`.error` covering any exception thrown inside the `try`
block).  On pipeline success the result is always cached; the `catch` re-reads
the cache and returns a cached value when one exists, re-throwing only
otherwise.  Returns the result (or propagated error) and the detail cache
afterwards. -/
def getMatchDetails {α : Type} (st : DetailState α) (matchId : Nat) (now : Nat)
    (fetch : Except Unit α) : Except Unit α × DetailState α :=
  match detailGet st matchId with
  | some (d, ts) =>
    if now - ts < MATCH_DETAILS_CACHE_DURATION then
      (Except.ok d, st)
    else
      (Except.ok d, st)
  | none =>
    match fetch with
    | .ok payload => (.ok payload, detailSet st matchId payload now)
    | .error e =>
      match detailGet st matchId with
      | some (d, _) => (.ok d, st)
      | none => (.error e, st)

/-! ## Player merge of the enricher -/

/-- A JavaScript value stored in a player object's field: `null` (also
standing for `undefined`, which the merge code never distinguishes from it),
a string, or a number. -/
inductive JVal
  | null
  | str (s : String)
  | num (n : Int)
deriving DecidableEq

/-- JavaScript truthiness: `null`/`undefined`, `""` and `0` are falsy. -/
def JVal.truthy : JVal → Bool
  | .null => false
  | .str s => s != ""
  | .num n => n != 0

/-- The JavaScript `a || b`. -/
def jsOr (a b : JVal) : JVal := if a.truthy then a else b

/-- A player object: an association list from field names to values in which
the first entry for a key wins.  An object literal whose later entries shadow
earlier ones (`{...existing, ...player}`) is therefore modelled by putting the
later spread source in front. -/
abbrev Obj := List (String × JVal)

/-- Field lookup `o.k`; `none` is JavaScript `undefined` (key absent). -/
def objGet (o : Obj) (k : String) : Option JVal :=
  (o.find? (fun p => p.1 == k)).map (·.2)

/-- Field access as a value, collapsing `undefined` into `null` (the merge
code only feeds field reads into truthiness tests and `||` chains, where the
two behave identically). -/
def objGetV (o : Obj) (k : String) : JVal := (objGet o k).getD .null

/-- The spread `{...a, ...b}`: entries of `b` shadow entries of `a`. -/
def objSpread (a b : Obj) : Obj := b ++ a

/-- `String.prototype.toLowerCase()`, modelled directly over the character
list (the library's `String.toLower` is equivalent but not kernel-reducible). -/
def jsToLower (s : String) : String := String.mk (s.data.map Char.toLower)

/-- A truthy string `name` field: the guard `if (player.name)` followed by
`player.name.toLowerCase()` as the map key. -/
def objName (o : Obj) : Option String :=
  match objGetV o "name" with
  | .str s => if s = "" then none else some s
  | _ => none

/-- The `allPlayersMap` (a JavaScript `Map` keyed by lower-cased name):
association list in insertion order, keys unique. -/
abbrev PlayersMap := List (String × Obj)

/-- `allPlayersMap.has(key)`. -/
def pmapHas (m : PlayersMap) (k : String) : Bool :=
  m.any (fun p => p.1 == k)

/-- `allPlayersMap.get(key)`. -/
def pmapGet (m : PlayersMap) (k : String) : Option Obj :=
  (m.find? (fun p => p.1 == k)).map (·.2)

/-- `allPlayersMap.set(key, v)`: updates an existing key in place, appends a
new one, as a JavaScript `Map` does. -/
def pmapSet (m : PlayersMap) (k : String) (v : Obj) : PlayersMap :=
  if pmapHas m k then m.map (fun p => if p.1 == k then (k, v) else p)
  else m ++ [(k, v)]

/-- First pass of the merge: each squad player with a truthy name is stored
under its lower-cased name (`allPlayersMap.set(key, { ...player })`). -/
def addSquadPlayer (m : PlayersMap) (player : Obj) : PlayersMap :=
  match objName player with
  | some n => pmapSet m (jsToLower n) player
  | none => m

/-- Second pass: a scorecard player is added on a miss; on a hit it merges as
`{ ...existing, ...player, image: existing.image || player.image }`, so every
field the scorecard supplies wins except `image`, which keeps a truthy
existing (squad) value. -/
def addScorecardPlayer (m : PlayersMap) (player : Obj) : PlayersMap :=
  match objName player with
  | some n =>
    let key := jsToLower n
    match pmapGet m key with
    | none => pmapSet m key player
    | some existing =>
      pmapSet m key
        (("image", jsOr (objGetV existing "image") (objGetV player "image")) ::
          objSpread existing player)
  | none => m

/-- Third pass: a live-score player is added on a miss; on a hit it merges as
`{ ...existing, ...player }`, so every field the score source supplies wins,
`image` and `role` included. -/
def addScorePlayer (m : PlayersMap) (player : Obj) : PlayersMap :=
  match objName player with
  | some n =>
    let key := jsToLower n
    match pmapGet m key with
    | none => pmapSet m key player
    | some existing => pmapSet m key (objSpread existing player)
  | none => m

/-- A raw match-info player entry: either a bare name string or an object. -/
inductive MatchDataPlayer
  | nameOnly (s : String)
  | obj (o : Obj)

/-- Name extraction of the fourth pass:
`typeof player === 'string' ? player : (player.name || player.playerName ||
player.player)`. -/
def matchDataName : MatchDataPlayer → JVal
  | .nameOnly s => .str s
  | .obj o => jsOr (objGetV o "name") (jsOr (objGetV o "playerName") (objGetV o "player"))

/-- Fourth pass: a raw match-info player is stored only when its name is
truthy, is not `'Unknown Player'`, and its key is not already present; an
existing entry is never touched. -/
def addMatchDataPlayer (m : PlayersMap) (player : MatchDataPlayer) : PlayersMap :=
  match matchDataName player with
  | .str s =>
    if s ≠ "" ∧ s ≠ "Unknown Player" then
      if pmapHas m (jsToLower s) then m
      else
        pmapSet m (jsToLower s)
          (match player with
           | .nameOnly n => [("name", .str n)]
           | .obj o => o)
    else m
  | _ => m

/-- The whole merge building `allPlayersMap`: squad players first, then
scorecard players, then live-score players, then raw match-info players. -/
def mergePlayers (playersFromSquad playersFromScorecard playersFromScore : List Obj)
    (playersFromMatchData : List MatchDataPlayer) : PlayersMap :=
  let m1 := playersFromSquad.foldl addSquadPlayer []
  let m2 := playersFromScorecard.foldl addScorecardPlayer m1
  let m3 := playersFromScore.foldl addScorePlayer m2
  playersFromMatchData.foldl addMatchDataPlayer m3

/-- `formatPlayers` of the squad extraction: an object with keys `name`,
`id`, `role`, `battingStyle`, `bowlingStyle`, `country` and `image`
(`player.playerImg || null`). -/
def formatSquadPlayer (name id role battingStyle bowlingStyle country playerImg : JVal) :
    Obj :=
  [("name", name), ("id", id), ("role", role), ("battingStyle", battingStyle),
   ("bowlingStyle", bowlingStyle), ("country", country), ("image", jsOr playerImg .null)]

/-- A live-score batsman of `extractPlayersFromScore`: keys `name`, `runs`,
`balls`, `fours`, `sixes`, `strikeRate`, `role: 'Batsman'` and `image`
(`batsman.image || batsman.img || null`). -/
def scoreBatsmanObj (name runs balls fours sixes strikeRate image img : JVal) : Obj :=
  [("name", name), ("runs", runs), ("balls", balls), ("fours", fours), ("sixes", sixes),
   ("strikeRate", strikeRate), ("role", .str "Batsman"), ("image", jsOr image (jsOr img .null))]

/-- A live-score bowler of `extractPlayersFromScore`. -/
def scoreBowlerObj (name overs runs wickets maidens economy image img : JVal) : Obj :=
  [("name", name), ("overs", overs), ("runs", runs), ("wickets", wickets),
   ("maidens", maidens), ("economy", economy), ("role", .str "Bowler"),
   ("image", jsOr image (jsOr img .null))]

/-- A scorecard batsman of `extractPlayersFromScorecard`: performance keys
plus `role: 'Batsman'` and `image: null` ("will be merged from squad data"). -/
def scorecardBatsmanObj (name id runs balls fours sixes strikeRate : JVal) : Obj :=
  [("name", name), ("id", id), ("runs", runs), ("balls", balls), ("fours", fours),
   ("sixes", sixes), ("strikeRate", strikeRate), ("role", .str "Batsman"), ("image", .null)]

/-- A scorecard bowler of `extractPlayersFromScorecard`. -/
def scorecardBowlerObj (name id overs runs wickets maidens eco : JVal) : Obj :=
  [("name", name), ("id", id), ("overs", overs), ("runs", runs), ("wickets", wickets),
   ("maidens", maidens), ("economy", eco), ("role", .str "Bowler"), ("image", .null)]

/-! ## Current batting state (organizeBattingData) -/

/-- Truthiness of an optional string field: `undefined`/`null` and `""` are
falsy. -/
def strTruthy : Option String → Bool
  | some s => s != ""
  | none => false

/-- The JavaScript `a || b` on strings with `""` falsy. -/
def jsOrS (a b : String) : String := if a != "" then a else b

/-- The JavaScript `a || b` on numbers with `0` falsy. -/
def jsOrN (a b : Nat) : Nat := if a != 0 then a else b

/-- One entry of an inning's `batting` array: `batsman` is the nested object
abstracted to its `name` field (`none` when the object is absent);
`dismissal` is the dismissal text (`none` when absent); `r` and `b` carry `0`
for an absent value, as the `entry.r || 0` fallbacks produce. -/
structure BattingEntry where
  batsman : Option String
  dismissal : Option String
  r : Nat
  b : Nat
deriving DecidableEq

/-- One entry of an inning's `bowling` array: `bowlerName` is
`bowler.bowler?.name`, `name` a direct `name` key, each `none` when absent;
`o`/`r`/`w` carry `0` for absent values. -/
structure BowlingEntry where
  bowlerName : Option String
  name : Option String
  o : Nat
  r : Nat
  w : Nat
deriving DecidableEq

/-- One inning of `scorecardData.data.scorecard`; `team` is `""` when absent
and the totals are `0` when absent (their `|| 0` fallbacks). -/
structure Inning where
  team : String
  batting : List BattingEntry
  bowling : List BowlingEntry
  totalRuns : Nat
  totalWickets : Nat
  totalOvers : Nat
deriving DecidableEq, Inhabited

/-- A per-inning summary from `matchData.data.score` (`r`, `w`, `o`). -/
structure ScoreSummary where
  r : Nat
  w : Nat
  o : Nat
deriving DecidableEq, Inhabited

/-- An output batsman row `{name, runs, balls, dismissal}`. -/
structure BatsmanData where
  name : String
  runs : Nat
  balls : Nat
  dismissal : Option String
deriving DecidableEq

/-- An output bowler row `{name, overs, runs, wickets}`. -/
structure BowlerData where
  name : String
  overs : Nat
  runs : Nat
  wickets : Nat
deriving DecidableEq

/-- The object `organizeBattingData` returns. -/
structure BattingData where
  battingTeam : String
  bowlingTeam : String
  currentBatsmen : List BatsmanData
  nextBatsman : Option String
  dismissedBatsmen : List BatsmanData
  currentBowlers : List BowlerData
  totalRuns : Nat
  totalWickets : Nat
  totalOvers : Nat
deriving DecidableEq

/-- `entry.batsman && !entry.dismissal`: the active-batter test used to pick
the current inning. -/
def hasActiveBatter (e : BattingEntry) : Bool :=
  e.batsman.isSome && !(strTruthy e.dismissal)

/-- The batsman row built inside the batting forEach
(`dismissal: entry.dismissal || null`). -/
def mkBatsmanData (nm : String) (e : BattingEntry) : BatsmanData :=
  { name := nm, runs := e.r, balls := e.b,
    dismissal := if strTruthy e.dismissal then e.dismissal else none }

/-- The body of the batting forEach: a guarded entry appends its lower-cased
name and routes its row into the dismissed or the current list. -/
def battingStep (acc : List String × List BatsmanData × List BatsmanData)
    (e : BattingEntry) : List String × List BatsmanData × List BatsmanData :=
  match e.batsman with
  | some nm =>
    if nm != "" then
      let names := acc.1 ++ [jsToLower nm]
      let bd := mkBatsmanData nm e
      if strTruthy e.dismissal then (names, acc.2.1, acc.2.2 ++ [bd])
      else (names, acc.2.1 ++ [bd], acc.2.2)
    else acc
  | none => acc

/-- The batting forEach: accumulates the lower-cased batted names, the
not-dismissed (current) batsmen, and the dismissed batsmen, in batting
order.  Entries without a batsman object or with a falsy name are skipped. -/
def collectBatting (batting : List BattingEntry) :
    List String × List BatsmanData × List BatsmanData :=
  batting.foldl battingStep ([], [], [])

/-- The next-batsman scan: the first squad member (abstracted to its `name`
field, `none` for an absent name) whose truthy name has not appeared among
the batted names. -/
def findNextBatsman (teamSquad : List (Option String)) (battedNames : List String) :
    Option String :=
  match teamSquad.find? (fun p =>
      (p.getD "") != "" && !(battedNames.contains (jsToLower (p.getD "")))) with
  | some p => some (p.getD "")
  | none => none

/-- `bowling.slice(0, 2)` mapped to bowler rows
(`bowler.bowler?.name || bowler.name || ''`), then filtered to truthy
names. -/
def mkBowlers (bowling : List BowlingEntry) : List BowlerData :=
  ((bowling.take 2).map (fun bw =>
    { name := jsOrS (bw.bowlerName.getD "") (jsOrS (bw.name.getD "") "")
      overs := bw.o
      runs := bw.r
      wickets := bw.w : BowlerData })).filter (fun b => b.name != "")

/-- The current inning: the first inning with a not-yet-dismissed batter,
falling back to the last inning (`scorecard.find(...) ||
scorecard[scorecard.length - 1]`); its position doubles as
`scorecard.indexOf(currentInning)`. -/
def selectedInningIdx (innings : List Inning) : Nat :=
  (innings.findIdx? (fun inn => inn.batting.any hasActiveBatter)).getD
    (innings.length - 1)

/-- The inning at `selectedInningIdx`. -/
def selectedInning (innings : List Inning) : Inning :=
  innings.getD (selectedInningIdx innings) default

/-- `organizeBattingData`: `none` models the `return null` paths (missing
scorecard payload, empty or non-array innings).  `scorecard` is
`scorecardData.data.scorecard` (`none` when `scorecardData` or its `data` is
missing); `squad1`/`squad2` are the members of `squadData?.team1Squad` /
`team2Squad`, abstracted to their `name` fields; `matchTeams` is
`matchData.data.teams || []`; `matchScore` the `matchData.data.score`
summaries. -/
def organizeBattingData (scorecard : Option (List Inning))
    (squad1 squad2 : List (Option String)) (matchTeams : List String)
    (matchScore : List ScoreSummary) : Option BattingData :=
  match scorecard with
  | none => none
  | some innings =>
    if innings.isEmpty then none
    else
      let idx := selectedInningIdx innings
      let currentInning := selectedInning innings
      let teamName := jsOrS currentInning.team (jsOrS (matchTeams.getD idx "") "")
      let bowlingTeam := jsOrS ((matchTeams.find? (fun t => t != teamName)).getD "")
        (jsOrS (matchTeams.getD 1 "") "")
      let collected := collectBatting currentInning.batting
      let teamSquad := if idx = 0 then squad1 else squad2
      some {
        battingTeam := teamName
        bowlingTeam := bowlingTeam
        currentBatsmen := collected.2.1.take 2
        nextBatsman := findNextBatsman teamSquad collected.1
        dismissedBatsmen := collected.2.2.take 5
        currentBowlers := mkBowlers currentInning.bowling
        totalRuns := jsOrN currentInning.totalRuns (matchScore.getD idx default).r
        totalWickets := jsOrN currentInning.totalWickets (matchScore.getD idx default).w
        totalOvers := jsOrN currentInning.totalOvers (matchScore.getD idx default).o }

/-- The not-dismissed batting rows of an inning, in batting order (the rows
the forEach routes into `currentBatsmen`). -/
def notDismissedRows (batting : List BattingEntry) : List BatsmanData :=
  (batting.filter (fun e => strTruthy e.batsman && !(strTruthy e.dismissal))).map
    (fun e => mkBatsmanData (e.batsman.getD "") e)

/-- The dismissed batting rows of an inning, in batting order. -/
def dismissedRows (batting : List BattingEntry) : List BatsmanData :=
  (batting.filter (fun e => strTruthy e.batsman && strTruthy e.dismissal)).map
    (fun e => mkBatsmanData (e.batsman.getD "") e)

/-- An inning whose six batters are all dismissed, in batting order
`b1, …, b6`: the failing input for the dismissed-batters ordering. -/
def sixOutInning : Inning :=
  { team := "IndiaT"
    batting :=
      [⟨some "b1", some "c Kane b Boult", 1, 2⟩,
       ⟨some "b2", some "lbw b Boult", 3, 4⟩,
       ⟨some "b3", some "bowled b Santner", 5, 6⟩,
       ⟨some "b4", some "run out", 7, 8⟩,
       ⟨some "b5", some "c and b Santner", 9, 10⟩,
       ⟨some "b6", some "st Latham b Santner", 11, 12⟩]
    bowling := []
    totalRuns := 36
    totalWickets := 6
    totalOvers := 10 }

/-- An inning with three not-yet-dismissed batters `p1, p2, p3`, used to
exercise the two-batsman cap. -/
def threeInInning : Inning :=
  { team := "A"
    batting :=
      [⟨some "p1", none, 1, 2⟩, ⟨some "p2", none, 3, 4⟩, ⟨some "p3", none, 5, 6⟩]
    bowling := []
    totalRuns := 9
    totalWickets := 0
    totalOvers := 3 }

/-! ## Theorems -/

theorem getApiKeyLoop_some (keys : List String) (blocked : String → Option Nat) (now : Nat) :
    ∀ fuel idx key ridx, getApiKeyLoop keys blocked now idx fuel = (some key, ridx) →
      isBlockedNow blocked key now = false := by
  intro fuel
  induction fuel with
  | zero => intro idx key ridx h; simp [getApiKeyLoop] at h
  | succ n ih =>
    intro idx key ridx h
    rw [getApiKeyLoop] at h
    by_cases hb : isBlockedNow blocked (keys.getD idx "") now
    · rw [if_pos hb] at h
      exact ih _ _ _ h
    · rw [if_neg hb] at h
      have hk : key = keys.getD idx "" := by
        have := congrArg Prod.fst h
        simpa using this.symm
      rw [hk]
      simpa using hb

theorem getApiKeyLoop_none (keys : List String) (blocked : String → Option Nat) (now : Nat) :
    ∀ fuel idx ridx, idx < keys.length →
      getApiKeyLoop keys blocked now idx fuel = (none, ridx) →
      ∀ j, j < fuel →
        isBlockedNow blocked (keys.getD ((idx + j) % keys.length) "") now = true := by
  intro fuel
  induction fuel with
  | zero => intro idx ridx _ _ j hj; omega
  | succ n ih =>
    intro idx ridx hidx h j hj
    rw [getApiKeyLoop] at h
    by_cases hb : isBlockedNow blocked (keys.getD idx "") now
    · rw [if_pos hb] at h
      have hpos : 0 < keys.length := by omega
      have hlt : (idx + 1) % keys.length < keys.length := Nat.mod_lt _ hpos
      cases j with
      | zero =>
        have : (idx + 0) % keys.length = idx := by
          simpa using Nat.mod_eq_of_lt hidx
        rw [this]
        exact hb
      | succ m =>
        have hrec := ih _ _ hlt h m (by omega)
        have hmod : ((idx + 1) % keys.length + m) % keys.length =
            (idx + (m + 1)) % keys.length := by
          rw [Nat.mod_add_mod]
          congr 1
          omega
        rwa [hmod] at hrec
    · rw [if_neg hb] at h
      simp at h

theorem index_coverage (n idx m : Nat) (hidx : idx < n) (hm : m < n) :
    ∃ j, j < n ∧ (idx + j) % n = m := by
  by_cases hle : idx ≤ m
  · refine ⟨m - idx, by omega, ?_⟩
    have : idx + (m - idx) = m := by omega
    rw [this]
    exact Nat.mod_eq_of_lt hm
  · refine ⟨m + n - idx, by omega, ?_⟩
    have : idx + (m + n - idx) = m + n := by omega
    rw [this, Nat.add_mod_right]
    exact Nat.mod_eq_of_lt hm

/-- C1 (amended): a credential marked rate-limited at time `T` is never
returned by `getApiKey` before `T + 16` minutes, provided at least one
credential in the pool is not blocked at selection time; when every credential
is blocked (not merely when the pool has a single credential) the fallback
returns the credential at the cursor regardless of its block. -/
theorem getApiKey_skips_blocked (st : KeyPoolState) (now : Nat) (key : String)
    (hidx : st.currentKeyIndex < st.apiKeys.length)
    (havail : ∃ k ∈ st.apiKeys, isKeyBlocked st k now = false)
    (hblocked : isKeyBlocked st key now = true) :
    (getApiKey st now).1 ≠ some key := by
  intro hsel
  have hne : st.apiKeys.isEmpty = false := by
    cases h : st.apiKeys with
    | nil => rw [h] at hidx; simp at hidx
    | cons a l => simp [h]
  rw [getApiKey, hne] at hsel
  simp only [Bool.false_eq_true, if_false] at hsel
  cases hloop : getApiKeyLoop st.apiKeys st.blockedUntil now st.currentKeyIndex
      st.apiKeys.length with
  | mk found ridx =>
    cases found with
    | some k =>
      rw [hloop] at hsel
      simp only at hsel
      have hnb := getApiKeyLoop_some st.apiKeys st.blockedUntil now _ _ _ _ hloop
      have : k = key := by simpa using hsel
      rw [this] at hnb
      rw [isKeyBlocked] at hblocked
      rw [hblocked] at hnb
      exact absurd hnb (by simp)
    | none =>
      obtain ⟨k0, hk0mem, hk0free⟩ := havail
      obtain ⟨i, hi, hget⟩ := List.mem_iff_getElem.mp hk0mem
      obtain ⟨j, hj, hcov⟩ := index_coverage st.apiKeys.length st.currentKeyIndex i hidx hi
      have hall := getApiKeyLoop_none st.apiKeys st.blockedUntil now _ _ _ hidx hloop j hj
      rw [hcov] at hall
      have hgd : st.apiKeys.getD i "" = k0 := by
        rw [List.getD_eq_getElem?_getD, List.getElem?_eq_getElem hi, Option.getD_some, hget]
      rw [hgd] at hall
      rw [isKeyBlocked] at hk0free
      rw [hk0free] at hall
      exact absurd hall (by simp)

/-- Witness for `getApiKey_skips_blocked`: pool `["keyA", "keyB"]`, `keyA`
marked rate-limited at time 0; at time 5 the selection does not return
`keyA`. -/
theorem getApiKey_skips_blocked_witness :
    (getApiKey (markKeyAsRateLimited ⟨["keyA", "keyB"], 0, fun _ => none⟩
        "keyA" 0 BLOCK_DURATION) 5).1 ≠ some "keyA" :=
  getApiKey_skips_blocked _ 5 "keyA" (by decide)
    ⟨"keyB", by decide, by decide⟩ (by decide)

/-- C1 counterexample: with a pool of two credentials both marked rate-limited
at time 0, `getApiKey` at time 5 (well before the 16-minute cooldown) returns
a blocked credential even though it is not the only credential in the pool. -/
theorem getApiKey_all_blocked_counterexample :
    ((getApiKey (markKeyAsRateLimited
        (markKeyAsRateLimited ⟨["keyA", "keyB"], 0, fun _ => none⟩ "keyA" 0 BLOCK_DURATION)
        "keyB" 0 BLOCK_DURATION) 5).1 = some "keyA") ∧
    (markKeyAsRateLimited
        (markKeyAsRateLimited ⟨["keyA", "keyB"], 0, fun _ => none⟩ "keyA" 0 BLOCK_DURATION)
        "keyB" 0 BLOCK_DURATION).blockedUntil "keyA" = some (0 + BLOCK_DURATION) ∧
    5 < 0 + BLOCK_DURATION ∧
    (markKeyAsRateLimited
        (markKeyAsRateLimited ⟨["keyA", "keyB"], 0, fun _ => none⟩ "keyA" 0 BLOCK_DURATION)
        "keyB" 0 BLOCK_DURATION).apiKeys.length = 2 := by
  refine ⟨by decide, by decide, by decide, by decide⟩

/-- Every gate passage starts no earlier than ten seconds after the timestamp
it observed: the sequential spacing guarantee that holds when passages are
serialized (each caller reads the previous caller's written start time). -/
theorem gateStart_spacing (obs t : Nat) : obs + THROTTLE_DELAY ≤ gateStart obs t := by
  simp only [gateStart, THROTTLE_DELAY]
  split <;> omega

/-- C2: the throttle gate does not keep two concurrently triggered passages
ten seconds apart.  With `lastApiCallTime = 95000`, two callers entering at
`100001` and `100002` (as the two region refreshes fired together by
`Promise.all` in `startCacheUpdater` do) both read the pre-wait timestamp,
both wake at `105000`, and record start times zero milliseconds apart —
contradicting the intended minimum spacing of `THROTTLE_DELAY`. -/
theorem throttle_concurrent_starts_collide :
    gateRun 100001 100002 ⟨0, 95000, .pending, .pending⟩
        [.read1, .read2, .wake1, .wake2] =
      some ⟨105000, 105000, .finished 105000, .finished 105000⟩ ∧
    105000 - 105000 < THROTTLE_DELAY := by
  refine ⟨by decide, by decide⟩

/-- Balance of `countP` under a single-position update. -/
theorem countP_set_balance (p : RefreshPhase → Bool) :
    ∀ (l : List RefreshPhase) (i : Nat) (a b : RefreshPhase), l[i]? = some b →
      (l.set i a).countP p + (if p b then 1 else 0) =
        l.countP p + (if p a then 1 else 0) := by
  intro l
  induction l with
  | nil => intro i a b h; simp at h
  | cons x xs ih =>
    intro i a b h
    cases i with
    | zero =>
      simp only [List.getElem?_cons_zero, Option.some.injEq] at h
      subst h
      simp [List.countP_cons]
      omega
    | succ n =>
      simp only [List.getElem?_cons_succ] at h
      have := ih n a b h
      simp [List.countP_cons, List.set]
      omega

/-- The inductive invariant of one region: at most one trigger is REFRESHING,
and the busy flag is set exactly while one is. -/
def regionInv (s : RegionState) : Prop :=
  inFlight s ≤ 1 ∧ (s.busy = true ↔ inFlight s = 1)

theorem regionStep_inv {s s' : RegionState} (hstep : RegionStep s s')
    (hinv : regionInv s) : regionInv s' := by
  obtain ⟨hle, hbusy⟩ := hinv
  cases hstep with
  | enterBusy i hb hi =>
    have hbal := countP_set_balance RefreshPhase.isRefreshing s.tasks i (.finished 0)
      .notStarted hi
    simp [RefreshPhase.isRefreshing] at hbal
    constructor
    · simp only [inFlight] at hle ⊢
      omega
    · simp only [inFlight] at hbusy ⊢
      rw [hbal]
      exact hbusy
  | enterFree i hb hi =>
    have hbal := countP_set_balance RefreshPhase.isRefreshing s.tasks i (.refreshing 0)
      .notStarted hi
    simp [RefreshPhase.isRefreshing] at hbal
    have hzero : inFlight s = 0 := by
      rcases Nat.lt_or_ge (inFlight s) 1 with h | h
      · omega
      · have : inFlight s = 1 := by omega
        rw [← hbusy] at this
        rw [this] at hb
        exact absurd hb (by simp)
    constructor
    · simp only [inFlight] at hzero ⊢
      omega
    · simp only [inFlight] at hzero ⊢
      constructor
      · intro _; omega
      · intro _; trivial
  | work i w hi =>
    have hbal := countP_set_balance RefreshPhase.isRefreshing s.tasks i (.refreshing (w + 1))
      (.refreshing w) hi
    simp [RefreshPhase.isRefreshing] at hbal
    constructor
    · simp only [inFlight] at hle ⊢
      omega
    · simp only [inFlight] at hbusy ⊢
      rw [hbal]
      exact hbusy
  | exitStep i w hi =>
    have hbal := countP_set_balance RefreshPhase.isRefreshing s.tasks i (.finished w)
      (.refreshing w) hi
    simp [RefreshPhase.isRefreshing] at hbal
    have hmem : RefreshPhase.refreshing w ∈ s.tasks := by
      exact List.getElem?_mem hi
    have hpos : 0 < inFlight s := by
      simp only [inFlight]
      rw [List.countP_pos_iff]
      exact ⟨_, hmem, by simp [RefreshPhase.isRefreshing]⟩
    constructor
    · simp only [inFlight] at hle hpos ⊢
      omega
    · simp only [inFlight] at hle hpos ⊢
      constructor
      · intro h; simp at h
      · intro h; omega

theorem regionInit_inv (n : Nat) : regionInv (regionInit n) := by
  constructor
  · simp only [inFlight, regionInit]
    have : (List.replicate n RefreshPhase.notStarted).countP RefreshPhase.isRefreshing = 0 := by
      rw [List.countP_eq_zero]
      intro a ha
      rw [List.eq_of_mem_replicate ha]
      decide
    omega
  · simp only [inFlight, regionInit]
    constructor
    · intro h; exact absurd h (by simp)
    · intro h
      rw [List.countP_eq_zero.mpr] at h
      · exact absurd h (by simp)
      · intro a ha
        rw [List.eq_of_mem_replicate ha]
        decide

/-- C3: in every reachable interleaving of triggers of one cache region, at
most one trigger is in the REFRESHING state, the busy flag is set exactly
while one is, and a trigger that has returned (in particular one that hit the
busy guard and returned as a no-op with zero fetches and cache writes) is
never resumed by any further step. -/
theorem refresh_mutual_exclusion (n : Nat) (s : RegionState)
    (h : RegionReachable n s) :
    inFlight s ≤ 1 ∧ (s.busy = true ↔ inFlight s = 1) ∧
    ∀ (s' : RegionState) (i w : Nat), RegionStep s s' →
      s.tasks[i]? = some (RefreshPhase.finished w) →
      s'.tasks[i]? = some (RefreshPhase.finished w) := by
  have hinv : regionInv s := by
    induction h with
    | refl => exact regionInit_inv n
    | tail _ hstep ih => exact regionStep_inv hstep ih
  refine ⟨hinv.1, hinv.2, ?_⟩
  intro s' i w hstep hfin
  cases hstep with
  | enterBusy j hb hj =>
    by_cases hij : i = j
    · rw [hij] at hfin; rw [hj] at hfin; simp at hfin
    · simpa [List.getElem?_set_ne (fun hh => hij hh.symm)] using hfin
  | enterFree j hb hj =>
    by_cases hij : i = j
    · rw [hij] at hfin; rw [hj] at hfin; simp at hfin
    · simpa [List.getElem?_set_ne (fun hh => hij hh.symm)] using hfin
  | work j w' hj =>
    by_cases hij : i = j
    · rw [hij] at hfin; rw [hj] at hfin; simp at hfin
    · simpa [List.getElem?_set_ne (fun hh => hij hh.symm)] using hfin
  | exitStep j w' hj =>
    by_cases hij : i = j
    · rw [hij] at hfin; rw [hj] at hfin; simp at hfin
    · simpa [List.getElem?_set_ne (fun hh => hij hh.symm)] using hfin

/-- Witness for `refresh_mutual_exclusion`: after the first trigger enters and
a second trigger hits the busy guard, exactly one trigger is REFRESHING and
the flag is set. -/
theorem refresh_mutual_exclusion_witness :
    inFlight ⟨true, [.refreshing 0, .finished 0]⟩ ≤ 1 ∧
    ((⟨true, [.refreshing 0, .finished 0]⟩ : RegionState).busy = true ↔
      inFlight ⟨true, [.refreshing 0, .finished 0]⟩ = 1) := by
  have hreach : RegionReachable 2 ⟨true, [.refreshing 0, .finished 0]⟩ := by
    have h1 : RegionStep (regionInit 2) ⟨true, [.refreshing 0, .notStarted]⟩ := by
      have := RegionStep.enterFree (regionInit 2) 0 rfl rfl
      simpa [regionInit] using this
    have h2 : RegionStep (⟨true, [.refreshing 0, .notStarted]⟩ : RegionState)
        ⟨true, [.refreshing 0, .finished 0]⟩ := by
      have := RegionStep.enterBusy (⟨true, [.refreshing 0, .notStarted]⟩ : RegionState) 1
        rfl rfl
      simpa using this
    exact Relation.ReflTransGen.tail (Relation.ReflTransGen.tail Relation.ReflTransGen.refl h1) h2
  have h := refresh_mutual_exclusion 2 _ hreach
  exact ⟨h.1, h.2.1⟩

theorem dateDescLe_trans : ∀ a b c : RawMatch,
    dateDescLe a b = true → dateDescLe b c = true → dateDescLe a c = true := by
  intro a b c hab hbc
  simp only [dateDescLe, decide_eq_true_eq] at *
  omega

theorem dateDescLe_total : ∀ a b : RawMatch, (dateDescLe a b || dateDescLe b a) = true := by
  intro a b
  simp only [dateDescLe, Bool.or_eq_true, decide_eq_true_eq]
  omega

/-- C4: the Current-region refresh stores exactly the matches satisfying
(started and not ended) or (started and ended and non-empty score), sorted
descending by resolved match date, capped at 10; in particular raw matches
`[{started: true, ended: false}, {started: false}]` classify exactly the
first into Current. -/
theorem classifyCurrent_correct (raw : List RawMatch) :
    (∀ m ∈ classifyCurrent raw, liveFilter m = true ∧ m ∈ raw) ∧
    List.Pairwise (fun a b => dateKey b ≤ dateKey a) (classifyCurrent raw) ∧
    (classifyCurrent raw).length ≤ 10 ∧
    ((raw.filter liveFilter).length ≤ 10 →
      (classifyCurrent raw).Perm (raw.filter liveFilter)) ∧
    (∀ old, updateCurrentMatchesCache old (.response ⟨"success", "", some raw⟩) =
      (classifyCurrent raw, some (classifyCurrent raw))) ∧
    classifyCurrent [sampleLive, sampleNotStarted] = [sampleLive] := by
  have hconc : classifyCurrent [sampleLive, sampleNotStarted] = [sampleLive] := by
    have hfil : [sampleLive, sampleNotStarted].filter liveFilter = [sampleLive] := by decide
    rw [classifyCurrent, hfil, List.mergeSort_singleton]
    rfl
  refine ⟨?_, ?_, ?_, ?_, fun old => rfl, hconc⟩
  · intro m hm
    have hsub := (List.take_sublist 10 _).subset hm
    have hmem := (List.mergeSort_perm (raw.filter liveFilter) dateDescLe).mem_iff.mp hsub
    exact ⟨(List.mem_filter.mp hmem).2, (List.mem_filter.mp hmem).1⟩
  · have hs := List.sorted_mergeSort dateDescLe_trans dateDescLe_total (raw.filter liveFilter)
    have hp := List.Pairwise.sublist (List.take_sublist 10 _) hs
    exact hp.imp (fun h => by simpa [dateDescLe] using h)
  · simp only [classifyCurrent, List.length_take]
    omega
  · intro hle
    rw [classifyCurrent, List.take_of_length_le]
    · exact List.mergeSort_perm _ _
    · rw [(List.mergeSort_perm _ _).length_eq]
      exact hle

/-- Witness for `classifyCurrent_correct` at the two-match scenario. -/
theorem classifyCurrent_correct_witness :
    classifyCurrent [sampleLive, sampleNotStarted] = [sampleLive] ∧
    liveFilter sampleLive = true ∧ sampleLive ∈ [sampleLive, sampleNotStarted] := by
  have h := classifyCurrent_correct [sampleLive, sampleNotStarted]
  have hmem : sampleLive ∈ classifyCurrent [sampleLive, sampleNotStarted] := by
    rw [h.2.2.2.2.2]
    exact List.mem_singleton_self _
  exact ⟨h.2.2.2.2.2, (h.1 sampleLive hmem).1, (h.1 sampleLive hmem).2⟩

/-- C5: the Upcoming-region refresh stores exactly the matches with
`matchStarted === false`, preserving upstream order, capped at 20; 25
not-started raw matches yield the first 20 in upstream order. -/
theorem classifyUpcoming_correct (raw : List RawMatch) :
    (classifyUpcoming raw).Sublist raw ∧
    (∀ m ∈ classifyUpcoming raw, m.matchStarted = some false) ∧
    (classifyUpcoming raw).length ≤ 20 ∧
    (∀ old, updateUpcomingMatchesCache old (.response ⟨"success", "", some raw⟩) =
      (classifyUpcoming raw, some (classifyUpcoming raw))) ∧
    classifyUpcoming ((List.range 25).map mkUpcoming) = (List.range 20).map mkUpcoming := by
  refine ⟨?_, ?_, ?_, fun old => rfl, by decide⟩
  · exact (List.take_sublist _ _).trans (List.filter_sublist _)
  · intro m hm
    have hmem := (List.take_sublist 20 _).subset hm
    have := (List.mem_filter.mp hmem).2
    simpa using this
  · simp only [classifyUpcoming, List.length_take]
    omega

/-- Witness for `classifyUpcoming_correct` at the 25-match scenario. -/
theorem classifyUpcoming_correct_witness :
    classifyUpcoming ((List.range 25).map mkUpcoming) = (List.range 20).map mkUpcoming ∧
    (classifyUpcoming ((List.range 25).map mkUpcoming)).length ≤ 20 := by
  have h := classifyUpcoming_correct ((List.range 25).map mkUpcoming)
  exact ⟨h.2.2.2.2, h.2.2.1⟩

/-- C8: a failed list-region refresh (transport error or upstream failure
envelope) leaves the previously cached region value unchanged, and a
non-empty stale Current cache is still exactly what `getCurrentMatches`
returns. -/
theorem failed_refresh_preserves_cache (old : Option (List RawMatch))
    (outcome : FetchOutcome) (herr : refreshSucceeded outcome = false) :
    (updateCurrentMatchesCache old outcome).2 = old ∧
    (updateUpcomingMatchesCache old outcome).2 = old ∧
    ∀ stale : List RawMatch, 0 < stale.length →
      getCurrentMatches (some stale) outcome = (stale, some stale) := by
  have hcur : (updateCurrentMatchesCache old outcome).2 = old := by
    cases outcome with
    | transportError rl => rfl
    | response r =>
      by_cases hs : r.status = "success"
      · have hdata : r.data = none := by
          simp only [refreshSucceeded, hs, Bool.and_eq_false_iff] at herr
          rcases herr with h | h
          · simp at h
          · exact Option.not_isSome_iff_eq_none.mp (by simp [h])
        simp [updateCurrentMatchesCache, hs, hdata]
      · simp [updateCurrentMatchesCache, hs]
  have hup : (updateUpcomingMatchesCache old outcome).2 = old := by
    cases outcome with
    | transportError rl => rfl
    | response r =>
      by_cases hs : r.status = "success"
      · have hdata : r.data = none := by
          simp only [refreshSucceeded, hs, Bool.and_eq_false_iff] at herr
          rcases herr with h | h
          · simp at h
          · exact Option.not_isSome_iff_eq_none.mp (by simp [h])
        simp [updateUpcomingMatchesCache, hs, hdata]
      · simp [updateUpcomingMatchesCache, hs]
  refine ⟨hcur, hup, ?_⟩
  intro stale hlen
  simp [getCurrentMatches, hlen]

/-- Witness for `failed_refresh_preserves_cache`: ten stale entries survive a
transport error and are still served. -/
theorem failed_refresh_preserves_cache_witness :
    (updateCurrentMatchesCache (some ((List.range 10).map mkUpcoming))
      (.transportError false)).2 = some ((List.range 10).map mkUpcoming) ∧
    getCurrentMatches (some ((List.range 10).map mkUpcoming)) (.transportError false) =
      ((List.range 10).map mkUpcoming, some ((List.range 10).map mkUpcoming)) := by
  have h := failed_refresh_preserves_cache (some ((List.range 10).map mkUpcoming))
    (.transportError false) (by decide)
  exact ⟨h.1, h.2.2 _ (by decide)⟩

/-- C7: `getMatchDetails` preserves the last successfully fetched value per
id: an error never modifies the cache; a cached value (fresh or stale) is
what is returned; the error propagates only when no cached value exists;
and a successful fetch on a miss stores its payload. -/
theorem getMatchDetails_last_known_good {α : Type} (st : DetailState α)
    (matchId now : Nat) :
    (∀ e : Unit, (getMatchDetails st matchId now (.error e)).2 = st) ∧
    (∀ d ts, detailGet st matchId = some (d, ts) →
      ∀ fetch, getMatchDetails st matchId now fetch = (.ok d, st)) ∧
    (detailGet st matchId = none →
      ∀ e : Unit, (getMatchDetails st matchId now (.error e)).1 = .error e) ∧
    (detailGet st matchId = none → ∀ payload,
      getMatchDetails st matchId now (.ok payload) =
        (.ok payload, detailSet st matchId payload now)) := by
  refine ⟨?_, ?_, ?_, ?_⟩
  · intro e
    cases h : detailGet st matchId with
    | some p =>
      obtain ⟨d, ts⟩ := p
      simp only [getMatchDetails, h]
      split <;> rfl
    | none => simp [getMatchDetails, h]
  · intro d ts hget fetch
    simp only [getMatchDetails, hget]
    split <;> rfl
  · intro hget e
    simp [getMatchDetails, hget]
  · intro hget payload
    simp [getMatchDetails, hget]

/-- Witness for `getMatchDetails_last_known_good`: id `7` cached as `42` at
time `100`; at time `10 ^ 6` (stale) an erroring pipeline still yields the
cached `42` and the cache is unchanged. -/
theorem getMatchDetails_last_known_good_witness :
    getMatchDetails (⟨[(7, 42, 100)]⟩ : DetailState Nat) 7 1000000 (.error ()) =
      (.ok 42, (⟨[(7, 42, 100)]⟩ : DetailState Nat)) ∧
    (getMatchDetails (⟨[(7, 42, 100)]⟩ : DetailState Nat) 7 1000000 (.error ())).2 =
      (⟨[(7, 42, 100)]⟩ : DetailState Nat) := by
  have h := getMatchDetails_last_known_good (⟨[(7, 42, 100)]⟩ : DetailState Nat) 7 1000000
  exact ⟨h.2.1 42 100 rfl (.error ()), h.1 ()⟩

theorem find?_map_replace (k : String) (v : Obj) :
    ∀ m : PlayersMap, pmapHas m k = true →
      (m.map (fun p => if p.1 == k then (k, v) else p)).find? (fun p => p.1 == k) =
        some (k, v) := by
  intro m
  induction m with
  | nil => intro h; simp [pmapHas] at h
  | cons p ps ih =>
    intro h
    simp only [List.map_cons]
    by_cases hp : (p.1 == k) = true
    · rw [if_pos hp, List.find?_cons]
      simp [beq_self_eq_true]
    · rw [if_neg hp, List.find?_cons]
      have hps : pmapHas ps k = true := by simpa [pmapHas, hp] using h
      simp only [hp]
      exact ih hps

theorem find?_map_replace_ne (k k' : String) (v : Obj) (hne : k' ≠ k) :
    ∀ m : PlayersMap,
      (m.map (fun p => if p.1 == k then (k, v) else p)).find? (fun p => p.1 == k') =
        m.find? (fun p => p.1 == k') := by
  intro m
  induction m with
  | nil => rfl
  | cons p ps ih =>
    simp only [List.map_cons, List.find?_cons]
    by_cases hp : (p.1 == k) = true
    · rw [if_pos hp]
      have hk : p.1 = k := by simpa using hp
      have h1 : (k == k') = false := beq_eq_false_iff_ne.mpr (fun hh => hne hh.symm)
      have h2 : (p.1 == k') = false := by rw [hk]; exact h1
      simp only [h1, h2, ih]
    · rw [if_neg hp]
      by_cases hq : (p.1 == k') = true
      · simp only [hq]
      · simp only [Bool.eq_false_iff.mpr hq, ih]

theorem pmapGet_pmapSet_self (m : PlayersMap) (k : String) (v : Obj) :
    pmapGet (pmapSet m k v) k = some v := by
  rw [pmapSet]
  by_cases h : pmapHas m k = true
  · rw [if_pos h, pmapGet, find?_map_replace k v m h]
    rfl
  · rw [if_neg h, pmapGet, List.find?_append]
    have hm : m.find? (fun p => p.1 == k) = none := by
      rw [List.find?_eq_none]
      intro x hx hxk
      exact h (List.any_eq_true.mpr ⟨x, hx, hxk⟩)
    rw [hm]
    simp [List.find?_cons, beq_self_eq_true]

theorem pmapGet_pmapSet_ne (m : PlayersMap) (k : String) (v : Obj) (k' : String)
    (hne : k' ≠ k) : pmapGet (pmapSet m k v) k' = pmapGet m k' := by
  rw [pmapSet]
  by_cases h : pmapHas m k = true
  · rw [if_pos h, pmapGet, pmapGet, find?_map_replace_ne k k' v hne m]
  · rw [if_neg h, pmapGet, pmapGet, List.find?_append]
    have hkv : ([(k, v)].find? (fun p => p.1 == k')) = none := by
      simp [List.find?_cons, beq_eq_false_iff_ne.mpr (fun hh => hne hh.symm)]
    rw [hkv, Option.or_none]

theorem pmapHas_of_get (m : PlayersMap) (k : String) (v : Obj)
    (h : pmapGet m k = some v) : pmapHas m k = true := by
  rw [pmapGet] at h
  obtain ⟨pr, hfind, _⟩ := Option.map_eq_some'.mp h
  have hp := List.find?_some hfind
  exact List.any_eq_true.mpr ⟨pr, List.mem_of_find?_eq_some hfind, hp⟩

theorem matchData_foldl_preserves (k : String) (v : Obj) :
    ∀ (l : List MatchDataPlayer) (m : PlayersMap), pmapGet m k = some v →
      pmapGet (l.foldl addMatchDataPlayer m) k = some v := by
  intro l
  induction l with
  | nil => intro m h; exact h
  | cons p ps ih =>
    intro m h
    rw [List.foldl_cons]
    apply ih
    unfold addMatchDataPlayer
    split
    next s heq =>
      split
      next hcond =>
        split
        next hhas => exact h
        next hhas =>
          have hkne : k ≠ jsToLower s := by
            intro he
            exact hhas (he ▸ pmapHas_of_get m k v h)
          rw [pmapGet_pmapSet_ne _ _ _ _ hkne]
          exact h
      next => exact h
    next => exact h

/-- C6 (amended): in the player merge keyed by case-insensitive name, for a
player already present in the map (in particular a squad player): the
scorecard merge keeps a truthy existing `image` but every other field the
scorecard supplies takes the scorecard's value; the live-score merge takes the
score source's value for every field it supplies, `image` and `role`
included; and the raw match-info pass never modifies an existing entry.
Later sources thus take precedence for the fields they supply (except
`image` at the scorecard step) rather than only filling missing fields. -/
theorem merge_precedence (m : PlayersMap) (player existing : Obj) (n : String)
    (hname : objName player = some n)
    (hex : pmapGet m (jsToLower n) = some existing) :
    ((objGetV existing "image").truthy = true →
      objGetV ((pmapGet (addScorecardPlayer m player) (jsToLower n)).getD []) "image" =
        objGetV existing "image") ∧
    (∀ k v, k ≠ "image" → objGet player k = some v →
      objGet ((pmapGet (addScorecardPlayer m player) (jsToLower n)).getD []) k = some v) ∧
    (∀ k v, objGet player k = some v →
      objGet ((pmapGet (addScorePlayer m player) (jsToLower n)).getD []) k = some v) ∧
    (∀ l : List MatchDataPlayer,
      pmapGet (l.foldl addMatchDataPlayer m) (jsToLower n) = some existing) := by
  have hcard : pmapGet (addScorecardPlayer m player) (jsToLower n) =
      some (("image", jsOr (objGetV existing "image") (objGetV player "image")) ::
        objSpread existing player) := by
    rw [addScorecardPlayer, hname]
    simp only [hex]
    exact pmapGet_pmapSet_self _ _ _
  have hscore : pmapGet (addScorePlayer m player) (jsToLower n) =
      some (objSpread existing player) := by
    rw [addScorePlayer, hname]
    simp only [hex]
    exact pmapGet_pmapSet_self _ _ _
  refine ⟨?_, ?_, ?_, fun l => matchData_foldl_preserves _ _ l m hex⟩
  · intro htruthy
    rw [hcard]
    have hhead : objGet (("image", jsOr (objGetV existing "image") (objGetV player "image")) ::
        objSpread existing player) "image" =
        some (jsOr (objGetV existing "image") (objGetV player "image")) := by
      rw [objGet, List.find?_cons]
      simp [beq_self_eq_true]
    rw [Option.getD_some, objGetV, hhead, Option.getD_some, jsOr, if_pos htruthy]
  · intro k v hkimg hkv
    rw [hcard]
    simp only [Option.getD_some, objGet, List.find?_cons]
    have himg : (("image" : String) == k) = false :=
      beq_eq_false_iff_ne.mpr (fun hh => hkimg hh.symm)
    simp only [himg]
    rw [objSpread, List.find?_append]
    rw [objGet] at hkv
    obtain ⟨pr, hfind, hpr⟩ := Option.map_eq_some'.mp hkv
    rw [hfind]
    simp [hpr]
  · intro k v hkv
    rw [hscore]
    simp only [Option.getD_some, objGet, objSpread, List.find?_append]
    rw [objGet] at hkv
    obtain ⟨pr, hfind, hpr⟩ := Option.map_eq_some'.mp hkv
    rw [hfind]
    simp [hpr]

/-- Witness for `merge_precedence`: Alice from the squad with image `"imgA"`
and a scorecard row for Alice; the scorecard merge keeps the squad image but
replaces the squad role with `'Batsman'`, and the live-score merge replaces
even the image. -/
theorem merge_precedence_witness :
    objGetV ((pmapGet (addScorecardPlayer
        (addSquadPlayer [] (formatSquadPlayer (.str "Alice") .null (.str "All-rounder")
          .null .null .null (.str "imgA")))
        (scorecardBatsmanObj (.str "Alice") .null (.num 30) (.num 20) .null .null .null))
        (jsToLower "Alice")).getD []) "image" = JVal.str "imgA" ∧
    objGet ((pmapGet (addScorePlayer
        (addSquadPlayer [] (formatSquadPlayer (.str "Alice") .null (.str "All-rounder")
          .null .null .null (.str "imgA")))
        (scoreBatsmanObj (.str "Alice") (.num 30) (.num 20) .null .null .null .null .null))
        (jsToLower "Alice")).getD []) "image" = some JVal.null := by
  have h1 := merge_precedence
    (addSquadPlayer [] (formatSquadPlayer (.str "Alice") .null (.str "All-rounder")
      .null .null .null (.str "imgA")))
    (scorecardBatsmanObj (.str "Alice") .null (.num 30) (.num 20) .null .null .null)
    (formatSquadPlayer (.str "Alice") .null (.str "All-rounder") .null .null .null
      (.str "imgA"))
    "Alice" (by decide) (by decide)
  have h2 := merge_precedence
    (addSquadPlayer [] (formatSquadPlayer (.str "Alice") .null (.str "All-rounder")
      .null .null .null (.str "imgA")))
    (scoreBatsmanObj (.str "Alice") (.num 30) (.num 20) .null .null .null .null .null)
    (formatSquadPlayer (.str "Alice") .null (.str "All-rounder") .null .null .null
      (.str "imgA"))
    "Alice" (by decide) (by decide)
  refine ⟨?_, ?_⟩
  · have := h1.1 (by decide)
    rw [this]
    decide
  · exact h2.2.2.1 "image" JVal.null (by decide)

/-- C6 counterexample: a squad Alice with image `"imgA"` and role
`'All-rounder'` also appears in the live-score source (whose constructed
object carries `image: null` and `role: 'Batsman'`); after the full merge the
stored image is `null` and the role is `'Batsman'` — the squad-sourced image
and role fields were overwritten by a later source, contradicting the claim
that they never are. -/
theorem squad_fields_overwritten_counterexample :
    objGetV (formatSquadPlayer (.str "Alice") .null (.str "All-rounder") .null .null .null
      (.str "imgA")) "image" = JVal.str "imgA" ∧
    objGetV (formatSquadPlayer (.str "Alice") .null (.str "All-rounder") .null .null .null
      (.str "imgA")) "role" = JVal.str "All-rounder" ∧
    objGetV ((pmapGet (mergePlayers
        [formatSquadPlayer (.str "Alice") .null (.str "All-rounder") .null .null .null
          (.str "imgA")]
        []
        [scoreBatsmanObj (.str "Alice") (.num 30) (.num 20) .null .null .null .null .null]
        []) "alice").getD []) "image" = JVal.null ∧
    objGetV ((pmapGet (mergePlayers
        [formatSquadPlayer (.str "Alice") .null (.str "All-rounder") .null .null .null
          (.str "imgA")]
        []
        [scoreBatsmanObj (.str "Alice") (.num 30) (.num 20) .null .null .null .null .null]
        []) "alice").getD []) "role" = JVal.str "Batsman" := by
  refine ⟨by decide, by decide, by decide, by decide⟩

/-- C9: on an inning whose six batters were dismissed in batting order
`b1, …, b6`, `organizeBattingData` returns the FIRST five dismissed batters
in batting order — not the five most recent dismissals most-recent-first as
the claim (and the code's own comment "Show only last 5 dismissed") states. -/
theorem organize_dismissed_not_most_recent :
    (organizeBattingData (some [sixOutInning]) [] [] ["IndiaT", "NZ"] []).map
      (fun bd => bd.dismissedBatsmen.map (fun r => r.name)) =
      some ["b1", "b2", "b3", "b4", "b5"] ∧
    (["b1", "b2", "b3", "b4", "b5"] : List String) ≠ ["b6", "b5", "b4", "b3", "b2"] := by
  refine ⟨by decide, by decide⟩

theorem battingStep_foldl (l : List BattingEntry) :
    ∀ acc, (l.foldl battingStep acc).2.1 = acc.2.1 ++ notDismissedRows l := by
  induction l with
  | nil => intro acc; simp [notDismissedRows]
  | cons e es ih =>
    intro acc
    rw [List.foldl_cons, ih]
    cases hb : e.batsman with
    | none => simp [battingStep, hb, notDismissedRows, strTruthy]
    | some nm =>
      cases hdm : e.dismissal with
      | some ds =>
        cases hds : (ds != "") with
        | true =>
          cases hnm : (nm != "") with
          | true => simp [battingStep, hb, hdm, hds, hnm, notDismissedRows, strTruthy]
          | false => simp [battingStep, hb, hdm, hds, hnm, notDismissedRows, strTruthy]
        | false =>
          cases hnm : (nm != "") with
          | true =>
            simp [battingStep, hb, hdm, hds, hnm, notDismissedRows, strTruthy,
              mkBatsmanData]
          | false => simp [battingStep, hb, hdm, hds, hnm, notDismissedRows, strTruthy]
      | none =>
        cases hnm : (nm != "") with
        | true =>
          simp [battingStep, hb, hdm, hnm, notDismissedRows, strTruthy, mkBatsmanData]
        | false => simp [battingStep, hb, hdm, hnm, notDismissedRows, strTruthy]

theorem collectBatting_current (batting : List BattingEntry) :
    (collectBatting batting).2.1 = notDismissedRows batting := by
  rw [collectBatting, battingStep_foldl]
  rfl

/-- C10: whenever `organizeBattingData` returns a batting summary, its
`currentBatsmen` list is the not-dismissed batters of the selected inning in
batting order capped at two entries — even when the inning has more than two
not-dismissed batters (a cap the specification does not state). -/
theorem currentBatsmen_capped (innings : List Inning)
    (squad1 squad2 : List (Option String)) (matchTeams : List String)
    (matchScore : List ScoreSummary) (bd : BattingData)
    (h : organizeBattingData (some innings) squad1 squad2 matchTeams matchScore =
      some bd) :
    bd.currentBatsmen.length ≤ 2 ∧
    bd.currentBatsmen = (notDismissedRows (selectedInning innings).batting).take 2 := by
  simp only [organizeBattingData] at h
  by_cases hemp : innings.isEmpty
  · rw [if_pos hemp] at h
    exact absurd h (by simp)
  · rw [if_neg hemp] at h
    have hbd := Option.some.inj h
    subst hbd
    refine ⟨?_, ?_⟩
    · simp only [collectBatting_current, List.length_take]
      omega
    · simp only [collectBatting_current]

/-- Witness for `currentBatsmen_capped`: an inning with three not-dismissed
batters yields exactly its first two, in batting order. -/
theorem currentBatsmen_capped_witness :
    (⟨"A", "", [⟨"p1", 1, 2, none⟩, ⟨"p2", 3, 4, none⟩], none, [], [], 9, 0, 3⟩ :
      BattingData).currentBatsmen.length ≤ 2 ∧
    (⟨"A", "", [⟨"p1", 1, 2, none⟩, ⟨"p2", 3, 4, none⟩], none, [], [], 9, 0, 3⟩ :
      BattingData).currentBatsmen =
      (notDismissedRows (selectedInning [threeInInning]).batting).take 2 :=
  currentBatsmen_capped [threeInInning] [] [] [] [] _ (by decide)

end CricketService
